import Mathlib

/-!
Shallow embedding of the cross-room moderation engine of the
maubot-communitybot plugin (src/community/bot.py), together with proofs
about the behaviors described in its specification: ban-list evaluation,
the ban fan-out, the redaction queue, the verification state machine and
power-level synchronization.

Remote calls (room-state reads, bans, redactions) are modelled by their
outcome at each call site: a field of an environment record says whether
the call succeeds (and with which value), raises a not-found error, or
raises any other error.  Database writes are modelled as pure state
updates.  Python dicts of user identifiers to integer power levels are
modelled as association lists with the dict operations (lookup, update,
pop) acting on the first occurrence of a key.
-/

set_option autoImplicit false

namespace CommunityBot

/-- Dict lookup on an association list (first occurrence of the key wins,
as in a Python dict, where keys are unique). -/
def alGet : List (String × Int) → String → Option Int
  | [], _ => none
  | (k, v) :: rest, u => if k = u then some v else alGet rest u

/-- Dict update m[k] = v: replaces the first binding of k, or appends a
new binding at the end, matching Python dict insertion order. -/
def alSet : List (String × Int) → String → Int → List (String × Int)
  | [], k, v => [(k, v)]
  | (k', v') :: rest, k, v =>
    if k' = k then (k, v) :: rest else (k', v') :: alSet rest k v

/-- Dict removal m.pop(k): removes the first binding of k. -/
def alErase : List (String × Int) → String → List (String × Int)
  | [], _ => []
  | (k', v') :: rest, k => if k' = k then rest else (k', v') :: alErase rest k

theorem alGet_alSet_self (m : List (String × Int)) (k : String) (v : Int) :
    alGet (alSet m k v) k = some v := by
  induction m with
  | nil => simp [alSet, alGet]
  | cons p rest ih =>
    obtain ⟨k', v'⟩ := p
    by_cases h : k' = k
    · simp [alSet, h, alGet]
    · simp [alSet, h, alGet, ih]

theorem alGet_alSet_ne (m : List (String × Int)) (k u : String) (v : Int)
    (h : u ≠ k) : alGet (alSet m k v) u = alGet m u := by
  have hku : k ≠ u := Ne.symm h
  induction m with
  | nil => simp [alSet, alGet, hku]
  | cons p rest ih =>
    obtain ⟨k', v'⟩ := p
    by_cases hk : k' = k
    · subst hk
      simp [alSet, alGet, hku]
    · by_cases hu : k' = u
      · simp [alSet, hk, alGet, hu, h]
      · simp [alSet, hk, alGet, hu, ih]

theorem mem_alSet (m : List (String × Int)) (k : String) (v : Int)
    (p : String × Int) (hp : p ∈ alSet m k v) : p = (k, v) ∨ p ∈ m := by
  induction m with
  | nil => simpa [alSet] using hp
  | cons q rest ih =>
    obtain ⟨k', v'⟩ := q
    by_cases h : k' = k
    · simp only [alSet, if_pos h] at hp
      rcases List.mem_cons.mp hp with h1 | h1
      · exact Or.inl h1
      · exact Or.inr (List.mem_cons_of_mem _ h1)
    · simp only [alSet, if_neg h] at hp
      rcases List.mem_cons.mp hp with h1 | h1
      · exact Or.inr (by simp [h1])
      · rcases ih h1 with h2 | h2
        · exact Or.inl h2
        · exact Or.inr (List.mem_cons_of_mem _ h2)

theorem alGet_mem (m : List (String × Int)) (k : String) (v : Int)
    (h : alGet m k = some v) : (k, v) ∈ m := by
  induction m with
  | nil => simp [alGet] at h
  | cons p rest ih =>
    obtain ⟨k', v'⟩ := p
    by_cases hk : k' = k
    · subst hk
      simp [alGet] at h
      subst h
      exact List.mem_cons_self _ _
    · simp only [alGet, if_neg hk] at h
      exact List.mem_cons_of_mem _ (ih h)

theorem alGet_eq_none_of_not_mem (m : List (String × Int)) (k : String)
    (h : k ∉ m.map Prod.fst) : alGet m k = none := by
  induction m with
  | nil => rfl
  | cons p rest ih =>
    obtain ⟨k', v'⟩ := p
    simp only [List.map_cons, List.mem_cons, not_or] at h
    have hne : ¬k' = k := fun hh => h.1 hh.symm
    simp only [alGet, if_neg hne]
    exact ih h.2

theorem alGet_alErase_ne (m : List (String × Int)) (k u : String)
    (h : u ≠ k) : alGet (alErase m k) u = alGet m u := by
  have hku : k ≠ u := Ne.symm h
  induction m with
  | nil => simp [alErase]
  | cons p rest ih =>
    obtain ⟨k', v'⟩ := p
    by_cases hk : k' = k
    · subst hk
      simp [alErase, alGet, hku]
    · simp [alErase, hk, alGet, ih]

theorem alGet_alErase_self (m : List (String × Int)) (k : String)
    (hnd : (m.map Prod.fst).Nodup) : alGet (alErase m k) k = none := by
  induction m with
  | nil => rfl
  | cons p rest ih =>
    obtain ⟨k', v'⟩ := p
    simp only [List.map_cons, List.nodup_cons] at hnd
    by_cases hk : k' = k
    · subst hk
      simp only [alErase, if_pos rfl]
      exact alGet_eq_none_of_not_mem rest k' hnd.1
    · simp only [alErase, if_neg hk, alGet, if_neg hk]
      exact ih hnd.2

/-! ### Ban Evaluator (bot.py check_if_banned, get_banlist_roomids)

The entity of each m.policy.rule.user rule is matched against the user
identifier with fnmatch.fnmatch, of which we model the star and
question-mark wildcards (the rules the engine consumes do not use
character classes); the recommendation is matched against the regular
expression "ban$", meaning the string ends with "ban". -/

/-- All suffixes of a character list, longest first, ending with the
empty suffix. -/
def charSuffixes : List Char → List (List Char)
  | [] => [[]]
  | c :: cs => (c :: cs) :: charSuffixes cs

/-- Shell-glob matching of a pattern (first argument) against a string:
star matches any run of characters (tried as every suffix of the rest of
the string), question mark matches exactly one character, every other
pattern character matches itself. -/
def globMatch : List Char → List Char → Bool
  | [], s => s.isEmpty
  | '*' :: ps, s => (charSuffixes s).any fun t => globMatch ps t
  | '?' :: ps, s =>
    match s with
    | [] => false
    | _ :: cs => globMatch ps cs
  | q :: ps, s =>
    match s with
    | [] => false
    | c :: cs => (q = c) && globMatch ps cs

/-- Model of Python fnmatch.fnmatch(name, pat) as called on Matrix user
identifiers and rule entities. -/
def fnmatch (name pat : String) : Bool := globMatch pat.toList name.toList

/-- Model of bool(re.search("ban$", s)). -/
def endsWithBan (s : String) : Bool := ("ban".toList).isSuffixOf s.toList

/-- One m.policy.rule.user state event's content. -/
structure PolicyRule where
  entity : String
  recommendation : String
deriving DecidableEq

/-- One subscribed policy-list room as the evaluator sees it: whether the
client.get_state call on it succeeds, and if so which user-ban rules its
state carries. -/
structure BanlistRoom where
  room_id : String
  readable : Bool
  rules : List PolicyRule
deriving DecidableEq

/-- Match of one rule against a user identifier, as in bot.py:451-453:
fnmatch of the user id against the rule entity, and the recommendation
ends with "ban". -/
def ruleMatchesBan (userid : String) (r : PolicyRule) : Bool :=
  fnmatch userid r.entity && endsWithBan r.recommendation

/-- Embedding of check_if_banned (bot.py:424-465).  For each banlist room
in order: the membership pre-check at line 431 only logs and then falls
through (the pass statement has no control-flow effect), so
client.get_state at line 438 is always called; that call sits outside
every try block, so a room whose state the bot cannot read raises out of
the whole function, modelled as Except.error carrying the room id.  A
readable room's user rules are scanned and the first match returns true;
if no list matches, the function returns false. -/
def check_if_banned : List BanlistRoom → String → Except String Bool
  | [], _ => Except.ok false
  | l :: rest, userid =>
    if l.readable then
      if l.rules.any (ruleMatchesBan userid) then Except.ok true
      else check_if_banned rest userid
    else Except.error l.room_id

/-- One entry of the banlists configuration: an alias (starting with a
hash) together with the outcome of resolve_room_alias on it, or a plain
room id. -/
inductive BanlistEntry where
  | roomAlias (resolution : Option String)
  | roomId (rid : String)
deriving DecidableEq

/-- Embedding of get_banlist_roomids (bot.py:775-793): an alias entry
whose resolution fails is logged and skipped (continue), a successfully
resolved alias contributes its room id, a plain room-id entry is kept
as-is. -/
def get_banlist_roomids (cfg : List BanlistEntry) : List String :=
  cfg.filterMap fun e =>
    match e with
    | .roomAlias r => r
    | .roomId r => some r

/-! ### Redaction Queue (bot.py redact_messages, _redaction_loop) -/

/-- Outcome of the client.redact call on one queued event: success, an
exception whose text contains "Too Many Requests", or any other
exception. -/
inductive RedactOutcome where
  | ok
  | rateLimited
  | failed
deriving DecidableEq

/-- One row of the redaction_tasks table for a room, paired with the
outcome the remote redact call would have on it. -/
structure RedactionTask where
  event_id : String
  outcome : RedactOutcome
deriving DecidableEq

/-- Success and failure counters returned by redact_messages. -/
structure RedactCounters where
  success : Nat
  failure : Nat
deriving DecidableEq

/-- Embedding of redact_messages (bot.py:489-514) draining the queued
rows of one room.  A successful redact call increments the success
counter and only then deletes the row; a rate-limit exception returns the
counters collected so far and leaves the current row and every later row
queued for the next cycle; any other exception increments the failure
counter, deletes nothing for that row, and continues with the next row.
The second component is the queue left in redaction_tasks for this room
after the cycle. -/
def redact_messages : List RedactionTask → RedactCounters × List RedactionTask
  | [] => (⟨0, 0⟩, [])
  | t :: rest =>
    match t.outcome with
    | .ok =>
      let r := redact_messages rest
      (⟨r.1.success + 1, r.1.failure⟩, r.2)
    | .rateLimited => (⟨0, 0⟩, t :: rest)
    | .failed =>
      let r := redact_messages rest
      (⟨r.1.success, r.1.failure + 1⟩, t :: r.2)

/-! ### Ban Propagation Engine (bot.py ban_this_user)

The loop body of ban_this_user fetches the room name, confirms the target
user's membership unless all_rooms is set, and calls ban_user; MNotFound
from any of these calls is swallowed by except MNotFound: pass, and any
other exception is recorded in error_list.  The redact-on-ban block at
bot.py:760-771 sits outside the try/except and therefore runs for every
room of the list; it only reads recent messages and inserts rows into the
redaction_tasks table — no client.redact call occurs anywhere in
ban_this_user.  Database inserts are modelled as pure state updates. -/

/-- Outcome of one remote call: success with a value, an MNotFound
exception, or any other exception. -/
inductive Fetch (α : Type) where
  | ok (val : α)
  | notFound
  | err
deriving DecidableEq

/-- Environment of one room during the ban fan-out: the fetched
m.room.name content, the membership-state fetch for the target user, the
outcome of the ban_user call, and the events get_messages_to_redact
returns for the user in that room. -/
structure RoomEnv where
  room_id : String
  nameFetch : Fetch String
  memberFetch : Fetch Unit
  banCall : Fetch Unit
  msgs : List String
deriving DecidableEq

/-- Result map of ban_this_user for the one target user: the rooms
appended under the user's key of ban_list, the current value under the
user's key of error_list (none while the key was never written), and the
rows inserted into redaction_tasks. -/
structure BanEventMap where
  ban_list : List String
  error_list : Option (List String)
  tasks : List (String × String)
deriving DecidableEq

/-- Python expression roomname or room: an empty or missing room name
falls back to the room id. -/
def displayName (nm : Option String) (rid : String) : String :=
  match nm with
  | some n => if n = "" then rid else n
  | none => rid

/-- Outcome of the try block of one loop iteration of ban_this_user
(bot.py:736-758). -/
inductive RoomAttempt where
  | banned (disp : String)
  | skipped
  | errored (disp : String)
deriving DecidableEq

/-- Embedding of the try block of one iteration: fetch the room name,
then unless all_rooms is set confirm the user's membership, then call
ban_user.  MNotFound anywhere skips the room silently; any other
exception yields the errored outcome with roomname or room id. -/
def ban_room_attempt (all_rooms : Bool) (r : RoomEnv) : RoomAttempt :=
  match r.nameFetch with
  | .notFound => .skipped
  | .err => .errored (displayName none r.room_id)
  | .ok nm =>
    let d := displayName (some nm) r.room_id
    let tryBan : RoomAttempt :=
      match r.banCall with
      | .ok _ => .banned d
      | .notFound => .skipped
      | .err => .errored d
    if all_rooms then tryBan
    else
      match r.memberFetch with
      | .notFound => .skipped
      | .err => .errored d
      | .ok _ => tryBan

/-- One full loop iteration of ban_this_user: the try block updates
ban_list on success and resets error_list to the one-element list of the
current room on an unexpected error (the assignment at bot.py:757
replaces the previous list), then the redact-on-ban block inserts one
redaction_tasks row per returned message whatever the attempt's
outcome. -/
def ban_room_step (all_rooms redact_on_ban : Bool) (acc : BanEventMap)
    (r : RoomEnv) : BanEventMap :=
  let acc1 :=
    match ban_room_attempt all_rooms r with
    | .banned d => { acc with ban_list := acc.ban_list ++ [d] }
    | .skipped => acc
    | .errored d => { acc with error_list := some [d] }
  if redact_on_ban then
    { acc1 with tasks := acc1.tasks ++ r.msgs.map fun e => (e, r.room_id) }
  else acc1

/-- Embedding of ban_this_user (bot.py:728-773).  The room list it
iterates is the space topology plus the parent room; callers of this
model pass that combined list. -/
def ban_this_user (all_rooms redact_on_ban : Bool) (rooms : List RoomEnv) :
    BanEventMap :=
  rooms.foldl (ban_room_step all_rooms redact_on_ban) ⟨[], none, []⟩

/-- The ban_list entry one room contributes when its ban succeeds. -/
def successEntry (all_rooms : Bool) (r : RoomEnv) : Option String :=
  match ban_room_attempt all_rooms r with
  | .banned d => some d
  | _ => none

/-- The redaction_tasks rows one room contributes. -/
def roomTasks (r : RoomEnv) : List (String × String) :=
  r.msgs.map fun e => (e, r.room_id)

/-- The redaction_tasks rows of a whole fan-out. -/
def allRoomTasks (rooms : List RoomEnv) : List (String × String) :=
  rooms.flatMap roomTasks

theorem ban_room_step_ban_list (a rd : Bool) (acc : BanEventMap)
    (r : RoomEnv) :
    (ban_room_step a rd acc r).ban_list =
      acc.ban_list ++ (successEntry a r).toList := by
  unfold ban_room_step successEntry
  cases ban_room_attempt a r <;> cases rd <;> simp

theorem ban_room_step_tasks (a rd : Bool) (acc : BanEventMap) (r : RoomEnv) :
    (ban_room_step a rd acc r).tasks =
      acc.tasks ++ (if rd then roomTasks r else []) := by
  unfold ban_room_step roomTasks
  cases ban_room_attempt a r <;> cases rd <;> simp

theorem ban_foldl_ban_list (a rd : Bool) (rooms : List RoomEnv)
    (acc : BanEventMap) :
    (rooms.foldl (ban_room_step a rd) acc).ban_list =
      acc.ban_list ++ rooms.filterMap (successEntry a) := by
  induction rooms generalizing acc with
  | nil => simp
  | cons r rs ih =>
    simp only [List.foldl_cons, ih, ban_room_step_ban_list,
      List.filterMap_cons]
    cases h : successEntry a r <;> simp [h]

theorem ban_foldl_tasks (a rd : Bool) (rooms : List RoomEnv)
    (acc : BanEventMap) :
    (rooms.foldl (ban_room_step a rd) acc).tasks =
      acc.tasks ++ (if rd then allRoomTasks rooms else []) := by
  induction rooms generalizing acc with
  | nil => simp [allRoomTasks]
  | cons r rs ih =>
    simp only [List.foldl_cons, ih, ban_room_step_tasks]
    cases rd <;> simp [allRoomTasks, List.flatMap_cons]

/-- C1: the claim states that a policy-list room the bot cannot read is
logged and skipped and that ban evaluation proceeds to the remaining
lists and still returns a verdict.  In the code the membership check at
bot.py:431-435 only logs (its pass statement does not skip), and the
client.get_state call at line 438 sits outside every try block, so an
unreadable list aborts the whole evaluation.  At this input the first
list is unreadable and the second list alone yields the verdict true,
yet the full evaluation aborts with an error instead. -/
theorem C1_unreadable_banlist_aborts_evaluation :
    check_if_banned
      [⟨"!list1:example.org", false, []⟩,
       ⟨"!list2:example.org", true, [⟨"@spam:example.org", "m.ban"⟩]⟩]
      "@spam:example.org" = Except.error "!list1:example.org"
    ∧ check_if_banned
      [⟨"!list2:example.org", true, [⟨"@spam:example.org", "m.ban"⟩]⟩]
      "@spam:example.org" = Except.ok true := by
  exact ⟨rfl, rfl⟩

/-- C6: draining a room queue whose calls succeed up to a first
rate-limited call deletes exactly the successfully redacted rows, keeps
every failed row and every row from the rate-limited one on, stops the
cycle there, and reports the successes and failures collected so far. -/
theorem C6_rate_limit_keeps_rest_queued (pre post : List RedactionTask)
    (t : RedactionTask)
    (hpre : ∀ x ∈ pre, x.outcome ≠ RedactOutcome.rateLimited)
    (ht : t.outcome = RedactOutcome.rateLimited) :
    redact_messages (pre ++ t :: post) =
      (⟨pre.countP (fun x => decide (x.outcome = RedactOutcome.ok)),
        pre.countP (fun x => decide (x.outcome = RedactOutcome.failed))⟩,
       pre.filter (fun x => decide (x.outcome = RedactOutcome.failed))
         ++ t :: post) := by
  induction pre with
  | nil => simp [redact_messages, ht]
  | cons x xs ih =>
    have hx : x.outcome ≠ RedactOutcome.rateLimited :=
      hpre x (List.mem_cons_self _ _)
    have ih' := ih fun y hy => hpre y (List.mem_cons_of_mem _ hy)
    cases hxo : x.outcome with
    | ok =>
      simp [redact_messages, hxo, ih', List.countP_cons, List.filter_cons]
    | rateLimited => exact absurd hxo hx
    | failed =>
      simp [redact_messages, hxo, ih', List.countP_cons, List.filter_cons]

/-- Witness for C6 at the specification's example: three queued tasks
with the second call rate-limited leave tasks two and three queued and
report one success. -/
theorem C6_rate_limit_keeps_rest_queued_witness :
    redact_messages
      [⟨"$e1", RedactOutcome.ok⟩, ⟨"$e2", RedactOutcome.rateLimited⟩,
       ⟨"$e3", RedactOutcome.ok⟩] =
      (⟨1, 0⟩,
       [⟨"$e2", RedactOutcome.rateLimited⟩, ⟨"$e3", RedactOutcome.ok⟩]) := by
  have h := C6_rate_limit_keeps_rest_queued [⟨"$e1", RedactOutcome.ok⟩]
    [⟨"$e3", RedactOutcome.ok⟩] ⟨"$e2", RedactOutcome.rateLimited⟩
    (by decide) rfl
  simpa using h

/-- C2 counterexample: with redact-on-ban enabled, a room where the ban
was skipped because the user is not a member (the membership fetch
raises MNotFound, so ban_user is never called and ban_list stays empty)
still gets its messages enqueued, because the enqueue block at
bot.py:760-771 is outside the try/except and runs for every room.  The
claim that no tasks are enqueued for a room whose ban was skipped is
false. -/
theorem C2_tasks_enqueued_without_successful_ban :
    (ban_this_user false true
      [⟨"!r1:example.org", Fetch.ok "Room One", Fetch.notFound,
        Fetch.ok (), ["$evt1"]⟩]).ban_list = []
    ∧ (ban_this_user false true
      [⟨"!r1:example.org", Fetch.ok "Room One", Fetch.notFound,
        Fetch.ok (), ["$evt1"]⟩]).tasks = [("$evt1", "!r1:example.org")] :=
  ⟨rfl, rfl⟩

/-- C2 amended: with redact-on-ban enabled, ban_this_user enqueues one
RedactionTask row per recent message of the user in every room of the
fan-out, whether the ban there succeeded, was skipped, or failed; with it
disabled nothing is enqueued.  On this path the messages are only
inserted into the redaction_tasks table — ban_this_user contains no
synchronous redact call, so redaction stays deferred to the queue. -/
theorem C2_redact_on_ban_enqueue_only (all_rooms redact_on_ban : Bool)
    (rooms : List RoomEnv) :
    (ban_this_user all_rooms redact_on_ban rooms).tasks =
      (if redact_on_ban then allRoomTasks rooms else []) := by
  unfold ban_this_user
  rw [ban_foldl_tasks]
  rfl

/-- C3: with two rooms both failing with unexpected errors, the returned
error_list holds only the most recent room: the assignment at bot.py:757
re-creates the empty list inside the exception handler on every failure,
discarding the earlier entries, while a single failing room is recorded
fine.  The claim that all failed rooms appear in the failed map is false
on the code. -/
theorem C3_error_list_keeps_only_last_failure :
    (ban_this_user false false
      [⟨"!r1:example.org", Fetch.ok "Room One", Fetch.ok (), Fetch.err, []⟩,
       ⟨"!r2:example.org", Fetch.ok "Room Two", Fetch.ok (), Fetch.err, []⟩]).error_list
      = some ["Room Two"]
    ∧ (ban_this_user false false
      [⟨"!r1:example.org", Fetch.ok "Room One", Fetch.ok (), Fetch.err, []⟩]).error_list
      = some ["Room One"] :=
  ⟨rfl, rfl⟩

/-- C7: the per-room bans are independent: ban_list is exactly the rooms
whose ban call succeeded, in order, whatever happened in the other rooms
(each iteration's exceptions are all caught by its two except clauses, so
no single room's failure aborts the loop); a room whose membership check
raises MNotFound while all_rooms is false — the user is absent — is
skipped without touching ban_list or error_list, and a ban call that
itself raises MNotFound (the absent or already-banned no-op outcome) is
likewise swallowed silently. -/
theorem C7_per_room_bans_independent (all_rooms redact_on_ban : Bool)
    (rooms : List RoomEnv) (r : RoomEnv) (acc : BanEventMap) (nm : String) :
    (ban_this_user all_rooms redact_on_ban rooms).ban_list =
      rooms.filterMap (successEntry all_rooms) ∧
    (r.nameFetch = Fetch.ok nm → r.memberFetch = Fetch.notFound →
      all_rooms = false →
      (ban_room_step all_rooms redact_on_ban acc r).ban_list = acc.ban_list ∧
      (ban_room_step all_rooms redact_on_ban acc r).error_list
        = acc.error_list) ∧
    (r.nameFetch = Fetch.ok nm → r.memberFetch = Fetch.ok () →
      r.banCall = Fetch.notFound →
      (ban_room_step all_rooms redact_on_ban acc r).ban_list = acc.ban_list ∧
      (ban_room_step all_rooms redact_on_ban acc r).error_list
        = acc.error_list) := by
  refine ⟨?_, ?_, ?_⟩
  · unfold ban_this_user
    rw [ban_foldl_ban_list]
    rfl
  · intro h1 h2 h3
    subst h3
    constructor <;>
      · unfold ban_room_step ban_room_attempt
        rw [h1, h2]
        cases redact_on_ban <;> simp
  · intro h1 h2 h3
    constructor <;>
      · unfold ban_room_step ban_room_attempt
        rw [h1, h2, h3]
        cases all_rooms <;> cases redact_on_ban <;> simp

/-- Witness for C7: a three-room fan-out whose middle room fails records
both surrounding successes, and a room with an absent user leaves the
result maps untouched. -/
theorem C7_per_room_bans_independent_witness :
    (ban_this_user false false
      [⟨"!a:example.org", Fetch.ok "A", Fetch.ok (), Fetch.ok (), []⟩,
       ⟨"!b:example.org", Fetch.ok "B", Fetch.ok (), Fetch.err, []⟩,
       ⟨"!c:example.org", Fetch.ok "C", Fetch.ok (), Fetch.ok (), []⟩]).ban_list
      = ["A", "C"] ∧
    (ban_room_step false false ⟨[], none, []⟩
      ⟨"!d:example.org", Fetch.ok "D", Fetch.notFound, Fetch.ok (), []⟩).error_list
      = none := by
  have h := C7_per_room_bans_independent false false
    [⟨"!a:example.org", Fetch.ok "A", Fetch.ok (), Fetch.ok (), []⟩,
     ⟨"!b:example.org", Fetch.ok "B", Fetch.ok (), Fetch.err, []⟩,
     ⟨"!c:example.org", Fetch.ok "C", Fetch.ok (), Fetch.ok (), []⟩]
    ⟨"!d:example.org", Fetch.ok "D", Fetch.notFound, Fetch.ok (), []⟩
    ⟨[], none, []⟩ "D"
  refine ⟨?_, ?_⟩
  · rw [h.1]
    rfl
  · exact (h.2.1 rfl rfl rfl).2

/-! ### Power-Level Synchronizer (bot.py sync_power_levels,
set_powerlevels, handle_verification promotion) -/

/-- Embedding of the delta computation of sync_power_levels
(bot.py:829-839): the users of the event's new content whose level is
absent from or different in the previous content.  Users present only in
the previous content are not part of the delta, since the loop iterates
the new map. -/
def changed_users (old new : List (String × Int)) : List (String × Int) :=
  new.filter fun p =>
    match alGet old p.1 with
    | none => true
    | some o => decide (o ≠ p.2)

/-- Embedding of the per-room merge of sync_power_levels
(bot.py:858-876): each changed user's level is written into the room's
existing users map, leaving every other entry as it was, and the merged
map is sent back. -/
def merge_power_levels (roomUsers changed : List (String × Int)) :
    List (String × Int) :=
  changed.foldl (fun m p => alSet m p.1 p.2) roomUsers

/-- The users map a child room holds after the reactive synchronizer
processed a parent power-level change from old to new. -/
def sync_room_users (old new roomUsers : List (String × Int)) :
    List (String × Int) :=
  merge_power_levels roomUsers (changed_users old new)

theorem alGet_merge_of_not_mem (changed : List (String × Int))
    (m : List (String × Int)) (u : String)
    (h : u ∉ changed.map Prod.fst) :
    alGet (merge_power_levels m changed) u = alGet m u := by
  induction changed generalizing m with
  | nil => rfl
  | cons p ps ih =>
    simp only [List.map_cons, List.mem_cons, not_or] at h
    simp only [merge_power_levels, List.foldl_cons]
    exact (ih (alSet m p.1 p.2) h.2).trans (alGet_alSet_ne m p.1 u p.2 h.1)

theorem alGet_of_mem_nodup (m : List (String × Int)) (k : String) (v : Int)
    (hnd : (m.map Prod.fst).Nodup) (hm : (k, v) ∈ m) : alGet m k = some v := by
  induction m with
  | nil => simp at hm
  | cons p rest ih =>
    simp only [List.map_cons, List.nodup_cons] at hnd
    rcases List.mem_cons.mp hm with h1 | h1
    · rw [← h1]
      simp [alGet]
    · by_cases hk : p.1 = k
      · exfalso
        apply hnd.1
        rw [hk]
        exact List.mem_map.mpr ⟨(k, v), h1, rfl⟩
      · obtain ⟨k', v'⟩ := p
        simp only [alGet, if_neg hk]
        exact ih hnd.2 h1

theorem alGet_merge_of_mem (changed : List (String × Int))
    (m : List (String × Int)) (k : String) (v : Int)
    (hnd : (changed.map Prod.fst).Nodup) (hm : (k, v) ∈ changed) :
    alGet (merge_power_levels m changed) k = some v := by
  induction changed generalizing m with
  | nil => simp at hm
  | cons p ps ih =>
    simp only [List.map_cons, List.nodup_cons] at hnd
    simp only [merge_power_levels, List.foldl_cons]
    rcases List.mem_cons.mp hm with h1 | h1
    · rw [← h1] at hnd ⊢
      exact (alGet_merge_of_not_mem ps (alSet m k v) k hnd.1).trans
        (alGet_alSet_self m k v)
    · exact ih (alSet m p.1 p.2) hnd.2 h1

theorem changed_users_differ (old new : List (String × Int))
    (p : String × Int) (hp : p ∈ changed_users old new) :
    p ∈ new ∧ alGet old p.1 ≠ some p.2 := by
  unfold changed_users at hp
  have h := List.mem_filter.mp hp
  refine ⟨h.1, ?_⟩
  have h2 := h.2
  rcases hh : alGet old p.1 with _ | o
  · simp [hh]
  · rw [hh] at h2
    simp only [decide_eq_true_eq] at h2
    intro hc
    exact h2 (Option.some.inj hc)

theorem changed_users_keys_nodup (old new : List (String × Int))
    (hnd : (new.map Prod.fst).Nodup) :
    ((changed_users old new).map Prod.fst).Nodup := by
  have hsub : List.Sublist (changed_users old new) new := List.filter_sublist _
  exact List.Nodup.sublist (hsub.map Prod.fst) hnd

/-- C8: the reactive synchronizer writes into a child room only the
entries of users whose level differs between the event's previous and new
user maps: an entry whose user is outside the delta set is preserved
exactly (including room-local entries absent from the parent), every
member of the delta set genuinely differs between the two parent maps,
and (given unique keys in the new parent map, as for a Python dict) the
written value of every delta user is that user's level in the new
map. -/
theorem C8_reactive_sync_is_sparse_merge (old new roomUsers :
    List (String × Int)) (u : String) :
    (u ∉ (changed_users old new).map Prod.fst →
      alGet (sync_room_users old new roomUsers) u = alGet roomUsers u) ∧
    (∀ p ∈ changed_users old new, p ∈ new ∧ alGet old p.1 ≠ some p.2) ∧
    ((new.map Prod.fst).Nodup → ∀ p ∈ changed_users old new,
      alGet (sync_room_users old new roomUsers) p.1 = some p.2 ∧
      alGet new p.1 = some p.2) := by
  refine ⟨?_, ?_, ?_⟩
  · intro h
    exact alGet_merge_of_not_mem (changed_users old new) roomUsers u h
  · intro p hp
    exact changed_users_differ old new p hp
  · intro hnd p hp
    obtain ⟨k, v⟩ := p
    constructor
    · exact alGet_merge_of_mem (changed_users old new) roomUsers k v
        (changed_users_keys_nodup old new hnd) hp
    · exact alGet_of_mem_nodup new k v hnd
        (changed_users_differ old new (k, v) hp).1

/-- Witness for C8 at the specification's example: parent levels A 50 and
B 100 changing only B to 75 yield the delta set containing only B, so a
room-local entry for C is preserved and B is written to 75. -/
theorem C8_reactive_sync_is_sparse_merge_witness :
    alGet (sync_room_users [("@A:example.org", 50), ("@B:example.org", 100)]
      [("@A:example.org", 50), ("@B:example.org", 75)]
      [("@C:example.org", 10), ("@B:example.org", 100)]) "@C:example.org"
      = some 10 ∧
    alGet (sync_room_users [("@A:example.org", 50), ("@B:example.org", 100)]
      [("@A:example.org", 50), ("@B:example.org", 75)]
      [("@C:example.org", 10), ("@B:example.org", 100)]) "@B:example.org"
      = some 75 := by
  have h := C8_reactive_sync_is_sparse_merge
    [("@A:example.org", 50), ("@B:example.org", 100)]
    [("@A:example.org", 50), ("@B:example.org", 75)]
    [("@C:example.org", 10), ("@B:example.org", 100)] "@C:example.org"
  refine ⟨h.1 (by decide), ?_⟩
  exact (h.2.2 (by decide) ("@B:example.org", 75) (by decide)).1

/-- C4 counterexample: the claim asserts that after every power-level
writing operation no user's level exceeds the bot's level in that room.
At this concrete input the reactive synchronizer propagates a parent
change raising a user to 100 into a room where the bot holds level 50:
the written map gives the user 100 while the bot stays at 50, so the
invariant is violated by one of the covered operations. -/
theorem C4_reactive_sync_can_exceed_bot_level :
    alGet (sync_room_users [] [("@mallory:example.org", 100)]
      [("@bot:example.org", 50)]) "@mallory:example.org" = some 100 ∧
    alGet (sync_room_users [] [("@mallory:example.org", 100)]
      [("@bot:example.org", 50)]) "@bot:example.org" = some 50 ∧
    ¬((100 : Int) ≤ 50) :=
  ⟨rfl, rfl, by decide⟩

/-- The users map set_powerlevels writes into a target room: the parent
room's users map with the bot's entry forced to 1000
(bot.py:2235-2238, 2270). -/
def full_sync_users (parentUsers : List (String × Int)) (bot : String) :
    List (String × Int) :=
  alSet parentUsers bot 1000

/-- C4 amended: only the on-demand full sync bounds user levels by the
bot's level: it forces the bot's entry to 1000, so whenever every level
in the parent map is at most 1000 no user of the written map exceeds the
bot's level there.  The reactive sparse merge and the verification
promotion write user levels without reference to the bot's level and can
leave a user above it, as the counterexample shows. -/
theorem C4_full_sync_bounds_user_levels (parent : List (String × Int))
    (bot u : String) (l : Int) (hb : ∀ p ∈ parent, p.2 ≤ 1000) :
    alGet (full_sync_users parent bot) bot = some 1000 ∧
    (alGet (full_sync_users parent bot) u = some l → l ≤ 1000) := by
  constructor
  · exact alGet_alSet_self parent bot 1000
  · intro h
    rcases mem_alSet parent bot 1000 (u, l) (alGet_mem _ _ _ h) with h1 | h1
    · have h2 : l = 1000 := congrArg Prod.snd h1
      omega
    · exact hb (u, l) h1

/-- Witness for C4 amended: a parent map holding one user at 50 is
written with the bot forced to 1000 and that user's level bounded by
it. -/
theorem C4_full_sync_bounds_user_levels_witness :
    alGet (full_sync_users [("@alice:example.org", 50)] "@bot:example.org")
      "@bot:example.org" = some 1000 ∧ (50 : Int) ≤ 1000 := by
  have h := C4_full_sync_bounds_user_levels [("@alice:example.org", 50)]
    "@bot:example.org" "@alice:example.org" 50 (by decide)
  exact ⟨h.1, h.2 rfl⟩

/-- The check_if_human configuration value: a global boolean flag or a
list of room ids. -/
inductive CheckIfHuman where
  | flag (b : Bool)
  | rooms (l : List String)
deriving DecidableEq

/-- Whether a room is covered by human verification under the
configuration (the isinstance checks at bot.py:922-926, 1021-1024 and
2253-2258). -/
def verification_gated (cfg : CheckIfHuman) (rid : String) : Bool :=
  match cfg with
  | .flag b => b
  | .rooms l => l.contains rid

/-- One room as set_powerlevels reads it; only the identifier and the
users map matter for the claims. -/
structure RoomPL where
  room_id : String
  users : List (String × Int)
deriving DecidableEq

/-- What set_powerlevels does to one room of its list. -/
inductive SyncAction where
  | skipped
  | written (users : List (String × Int))
deriving DecidableEq

/-- Embedding of the per-room body of set_powerlevels
(bot.py:2240-2277): a room is skipped exactly when the list being synced
has more than one room and the room is verification-gated; otherwise its
users map is replaced with the parent map carrying the bot forced to
1000. -/
def set_powerlevels_room (listLen : Nat) (cfg : CheckIfHuman)
    (forced : List (String × Int)) (r : RoomPL) : SyncAction :=
  if 1 < listLen ∧ verification_gated cfg r.room_id then .skipped
  else .written forced

/-- Embedding of set_powerlevels (bot.py:2201-2300): an explicit target
room makes the room list that single room, otherwise the list is the
space topology; the parent users map gets the bot's entry forced to 1000
once, and each room of the list is then skipped or written. -/
def set_powerlevels (cfg : CheckIfHuman) (parentUsers : List (String × Int))
    (bot : String) (spaceRooms : List RoomPL) (target : Option RoomPL) :
    List (String × SyncAction) :=
  let roomlist := match target with | some t => [t] | none => spaceRooms
  let forced := full_sync_users parentUsers bot
  roomlist.map fun r =>
    (r.room_id, set_powerlevels_room roomlist.length cfg forced r)

/-- C9 counterexample: a bulk sync with no explicit target over a
topology holding a single verification-gated room does not skip that
room — the guard at bot.py:2253-2259 tests the length of the room list,
not whether a target was given — so its users map is overwritten with
the parent map plus the forced bot entry, against the claim that every
gated room is skipped during a bulk sync. -/
theorem C9_bulk_sync_single_gated_room_not_skipped :
    set_powerlevels (CheckIfHuman.flag true) [("@a:example.org", 50)]
      "@bot:example.org" [⟨"!gated:example.org", [("@v:example.org", 1)]⟩]
      none
      = [("!gated:example.org",
          SyncAction.written
            [("@a:example.org", 50), ("@bot:example.org", 1000)])] := rfl

/-- C9 amended: verification-gated rooms are skipped exactly when the
room list being synced has more than one room: an explicit, sole target
room is always written with the parent map plus the bot forced to 1000
(even when gated), a bulk sync over more than one room skips precisely
its gated rooms, and a bulk sync over a single-room topology behaves
like an explicit target and writes the room. -/
theorem C9_gating_depends_on_list_length (cfg : CheckIfHuman)
    (parent : List (String × Int)) (bot : String) (spaceRooms : List RoomPL)
    (t : RoomPL) :
    set_powerlevels cfg parent bot spaceRooms (some t)
      = [(t.room_id, SyncAction.written (full_sync_users parent bot))] ∧
    (1 < spaceRooms.length →
      set_powerlevels cfg parent bot spaceRooms none
        = spaceRooms.map fun r => (r.room_id,
            if verification_gated cfg r.room_id then SyncAction.skipped
            else SyncAction.written (full_sync_users parent bot))) ∧
    (spaceRooms = [t] →
      set_powerlevels cfg parent bot spaceRooms none
        = [(t.room_id, SyncAction.written (full_sync_users parent bot))]) := by
  refine ⟨?_, ?_, ?_⟩
  · simp [set_powerlevels, set_powerlevels_room]
  · intro h
    simp only [set_powerlevels]
    apply List.map_congr_left
    intro r hr
    by_cases hg : verification_gated cfg r.room_id
    · simp [set_powerlevels_room, h, hg]
    · simp [set_powerlevels_room, h, hg]
  · intro h
    subst h
    simp [set_powerlevels, set_powerlevels_room]

/-- Witness for C9: over a two-room topology whose first room is gated, a
bulk sync skips the gated room and writes the other; the explicit sync of
the gated room writes it. -/
theorem C9_gating_depends_on_list_length_witness :
    set_powerlevels (CheckIfHuman.rooms ["!g:example.org"])
      [("@a:example.org", 50)] "@bot:example.org"
      [⟨"!g:example.org", []⟩, ⟨"!h:example.org", []⟩] none
      = [("!g:example.org", SyncAction.skipped),
         ("!h:example.org",
          SyncAction.written
            [("@a:example.org", 50), ("@bot:example.org", 1000)])] ∧
    set_powerlevels (CheckIfHuman.rooms ["!g:example.org"])
      [("@a:example.org", 50)] "@bot:example.org"
      [⟨"!g:example.org", []⟩, ⟨"!h:example.org", []⟩]
      (some ⟨"!g:example.org", []⟩)
      = [("!g:example.org",
          SyncAction.written
            [("@a:example.org", 50), ("@bot:example.org", 1000)])] := by
  have h := C9_gating_depends_on_list_length
    (CheckIfHuman.rooms ["!g:example.org"]) [("@a:example.org", 50)]
    "@bot:example.org" [⟨"!g:example.org", []⟩, ⟨"!h:example.org", []⟩]
    ⟨"!g:example.org", []⟩
  refine ⟨?_, ?_⟩
  · rw [h.2.1 (by decide)]
    rfl
  · rw [h.1]
    rfl

/-! ### Leave handling in verification-gated rooms
(bot.py handle_leave_events) -/

/-- Power-level state content as handle_leave_events reads it. -/
structure PLState where
  users : List (String × Int)
  users_default : Int
deriving DecidableEq

/-- mautrix get_user_level: the user's entry in the users map, falling
back to users_default when absent. -/
def get_user_level (pl : PLState) (u : String) : Int :=
  (alGet pl.users u).getD pl.users_default

/-- Embedding of handle_leave_events (bot.py:911-942), shared by the
leave, kick and ban handlers: an event replayed from the state stream is
ignored; in a room covered by human verification, a live
membership-loss event pops the departing user's entry from the
power-level users map exactly when their current level equals
users_default plus one (the verified-user marker) and writes the state
back; any other level leaves the power levels untouched, as does an
uncovered room. -/
def handle_leave_events (cfg : CheckIfHuman) (fromStateStream : Bool)
    (room_id user_id : String) (pl : PLState) : PLState :=
  if fromStateStream then pl
  else if verification_gated cfg room_id then
    if get_user_level pl user_id = pl.users_default + 1 then
      { pl with users := alErase pl.users user_id }
    else pl
  else pl

/-- C10: a replayed state-snapshot event changes nothing; for a live
leave, kick or ban in a verification-covered room the user's entry is
removed exactly when their current level is users_default plus one (with
unique keys, as for a Python dict, their entry is gone afterwards),
every other user's entry is untouched by the removal, and a user at any
other level leaves the whole power-level state unchanged. -/
theorem C10_leave_removes_exactly_verified (cfg : CheckIfHuman)
    (replay : Bool) (room user : String) (pl : PLState) :
    (replay = true → handle_leave_events cfg replay room user pl = pl) ∧
    (replay = false → verification_gated cfg room = true →
      (get_user_level pl user = pl.users_default + 1 →
        handle_leave_events cfg replay room user pl
          = { pl with users := alErase pl.users user } ∧
        ((pl.users.map Prod.fst).Nodup →
          alGet (handle_leave_events cfg replay room user pl).users user
            = none)) ∧
      (get_user_level pl user ≠ pl.users_default + 1 →
        handle_leave_events cfg replay room user pl = pl) ∧
      (∀ v, v ≠ user →
        alGet (handle_leave_events cfg replay room user pl).users v
          = alGet pl.users v)) := by
  constructor
  · intro h
    simp [handle_leave_events, h]
  · intro h hg
    subst h
    refine ⟨?_, ?_, ?_⟩
    · intro hl
      have heq : handle_leave_events cfg false room user pl
          = { pl with users := alErase pl.users user } := by
        simp [handle_leave_events, hg, hl]
      refine ⟨heq, ?_⟩
      intro hnd
      rw [heq]
      exact alGet_alErase_self pl.users user hnd
    · intro hl
      simp [handle_leave_events, hg, hl]
    · intro v hv
      by_cases hl : get_user_level pl user = pl.users_default + 1
      · have heq : handle_leave_events cfg false room user pl
            = { pl with users := alErase pl.users user } := by
          simp [handle_leave_events, hg, hl]
        rw [heq]
        exact alGet_alErase_ne pl.users user v hv
      · simp [handle_leave_events, hg, hl]

/-- Witness for C10: in a gated room, a live leave of a user at the
verified level removes exactly that user's entry and keeps another
user's entry, while a replayed event changes nothing. -/
theorem C10_leave_removes_exactly_verified_witness :
    handle_leave_events (CheckIfHuman.flag true) false "!r:example.org"
      "@u:example.org" ⟨[("@u:example.org", 1), ("@w:example.org", 50)], 0⟩
      = ⟨[("@w:example.org", 50)], 0⟩ ∧
    alGet (handle_leave_events (CheckIfHuman.flag true) false "!r:example.org"
      "@u:example.org"
      ⟨[("@u:example.org", 1), ("@w:example.org", 50)], 0⟩).users
      "@w:example.org" = some 50 ∧
    handle_leave_events (CheckIfHuman.flag true) true "!r:example.org"
      "@u:example.org" ⟨[("@u:example.org", 1)], 0⟩
      = ⟨[("@u:example.org", 1)], 0⟩ := by
  have h := C10_leave_removes_exactly_verified (CheckIfHuman.flag true) false
    "!r:example.org" "@u:example.org"
    ⟨[("@u:example.org", 1), ("@w:example.org", 50)], 0⟩
  have h2 := C10_leave_removes_exactly_verified (CheckIfHuman.flag true) true
    "!r:example.org" "@u:example.org" ⟨[("@u:example.org", 1)], 0⟩
  refine ⟨?_, ?_, h2.1 rfl⟩
  · exact ((h.2 rfl rfl).1 (by decide)).1
  · exact (h.2 rfl rfl).2.2 "@w:example.org" (by decide)

/-! ### Verification State Machine (bot.py handle_verification,
store_verification_state, get_verification_state,
delete_verification_state) -/

/-- One persisted row of the verification_states table, keyed outside
this record by the private room id. -/
structure VerificationState where
  user : String
  target_room : String
  phrase : String
  attempts : Int
  required_level : Int
deriving DecidableEq

/-- ASCII lowercasing of one character, modelling Python str.lower on
the phrases the engine compares. -/
def asciiToLower (c : Char) : Char :=
  if 'A' ≤ c ∧ c ≤ 'Z' then Char.ofNat (c.toNat + 32) else c

/-- Characters kept by the re.sub pattern at bot.py:1130-1131: word
characters (alphanumerics and underscore) and whitespace. -/
def isWordOrSpace (c : Char) : Bool :=
  c.isAlphanum || c = '_' || c.isWhitespace

/-- Leading and trailing whitespace removal, modelling Python
str.strip. -/
def trimChars (l : List Char) : List Char :=
  ((l.dropWhile Char.isWhitespace).reverse.dropWhile Char.isWhitespace).reverse

/-- Normalization of the user's message at bot.py:1126 and 1130: strip
surrounding whitespace, lowercase, then drop punctuation. -/
def normalizeUserPhrase (s : String) : String :=
  ⟨((trimChars s.toList).map asciiToLower).filter isWordOrSpace⟩

/-- Normalization of the stored phrase at bot.py:1127 and 1131: lowercase
then drop punctuation (the stored phrase is not stripped). -/
def normalizeStoredPhrase (s : String) : String :=
  ⟨(s.toList.map asciiToLower).filter isWordOrSpace⟩

/-- Embedding of the message handler handle_verification
(bot.py:1114-1181) acting on the verification row stored for the room
the message arrived in.  Messages from the bot itself are ignored; with
no stored row nothing happens.  A matching phrase deletes the row (the
finally block runs on both branches) and, when the user is still a
member of the target room, writes their power level there to the stored
required_level.  A mismatch decrements attempts and deletes the row as
soon as the decremented count is zero or below, otherwise stores the
decremented row via store_verification_state (bot.py:2355-2392, an
upsert of the given values).  The result is the row stored for the
private room after the invocation, paired with the target room's users
map. -/
def handle_verification (botId sender : String)
    (st : Option VerificationState) (body : String) (stillMember : Bool)
    (targetUsers : List (String × Int)) :
    Option VerificationState × List (String × Int) :=
  if sender = botId then (st, targetUsers)
  else
    match st with
    | none => (none, targetUsers)
    | some s =>
      if normalizeUserPhrase body = normalizeStoredPhrase s.phrase then
        if stillMember then (none, alSet targetUsers s.user s.required_level)
        else (none, targetUsers)
      else
        let s' : VerificationState := { s with attempts := s.attempts - 1 }
        if s'.attempts ≤ 0 then (none, targetUsers)
        else (some s', targetUsers)

/-- C5: across one response-handler invocation the stored attempts value
never increases (a match deletes the row, a mismatch decrements); when
the sender is not the bot — the handler ignores the bot's own messages —
any row still stored after the invocation carries exactly the
decremented count and that count is positive, because a decrement
reaching zero or below deletes the row instead of storing it.  Hence no
row with attempts zero is ever stored by the handler. -/
theorem C5_attempts_never_increase_and_zero_is_deleted
    (botId sender body : String) (st : Option VerificationState)
    (still : Bool) (tu : List (String × Int)) :
    (∀ s s', st = some s →
      (handle_verification botId sender st body still tu).1 = some s' →
      s'.attempts ≤ s.attempts) ∧
    (sender ≠ botId → ∀ s s', st = some s →
      (handle_verification botId sender st body still tu).1 = some s' →
      s'.attempts = s.attempts - 1 ∧ 0 < s'.attempts) := by
  constructor
  · intro s s' hst hres
    subst hst
    by_cases hb : sender = botId
    · simp only [handle_verification, if_pos hb, Option.some.injEq] at hres
      rw [← hres]
    · simp only [handle_verification, if_neg hb] at hres
      by_cases hm : normalizeUserPhrase body = normalizeStoredPhrase s.phrase
      · rw [if_pos hm] at hres
        cases still <;> simp at hres
      · rw [if_neg hm] at hres
        by_cases hz : s.attempts - 1 ≤ 0
        · simp [hz] at hres
        · simp only [hz, if_false, Option.some.injEq] at hres
          rw [← hres]
          show s.attempts - 1 ≤ s.attempts
          omega
  · intro hb s s' hst hres
    subst hst
    simp only [handle_verification, if_neg hb] at hres
    by_cases hm : normalizeUserPhrase body = normalizeStoredPhrase s.phrase
    · rw [if_pos hm] at hres
      cases still <;> simp at hres
    · rw [if_neg hm] at hres
      by_cases hz : s.attempts - 1 ≤ 0
      · simp [hz] at hres
      · simp only [hz, if_false, Option.some.injEq] at hres
        rw [← hres]
        constructor
        · rfl
        · show (0 : Int) < s.attempts - 1
          omega

/-- Witness for C5: a mismatching reply from a non-bot sender against a
row with two attempts stores the row with one attempt, which is the
decrement of two and positive. -/
theorem C5_attempts_never_increase_and_zero_is_deleted_witness :
    (⟨"@alice:example.org", "!t:example.org", "magic words", 1, 5⟩ :
        VerificationState).attempts
      = (⟨"@alice:example.org", "!t:example.org", "magic words", 2, 5⟩ :
        VerificationState).attempts - 1
    ∧ 0 < (⟨"@alice:example.org", "!t:example.org", "magic words", 1, 5⟩ :
        VerificationState).attempts := by
  exact (C5_attempts_never_increase_and_zero_is_deleted "@bot:example.org"
    "@alice:example.org" "wrong"
    (some ⟨"@alice:example.org", "!t:example.org", "magic words", 2, 5⟩)
    true []).2 (by decide)
    ⟨"@alice:example.org", "!t:example.org", "magic words", 2, 5⟩
    ⟨"@alice:example.org", "!t:example.org", "magic words", 1, 5⟩
    rfl (by decide)

end CommunityBot
